import Mathlib

/-!
Shallow embedding of `src/harness.py`: the orchestrator `Harness.evaluate`, its
helpers `safe_restore` and `safe_library`, and the command-line batch driver.

Effects are made explicit:
* the set of injected destination files currently present on disk is a
  `List String` (a path occurs at most once);
* every `git checkout <hash> <dir>` pin and every `safe_restore` invocation is
  counted, and a `treeDirty` flag records whether the tracked directories
  (`rtl/`, `docs/`, `verification/`) are checked out away from their pre-run
  committed state;
* the run outcome of each configured service is part of the environment
  (`SvcResult`): either a process exit code (`subprocess.run(...).returncode`)
  or a raised invocation fault;
* Python exceptions are modelled by `Except` with one `Err` code per raise
  site (`os.remove` on a missing path raises `FileNotFoundError`, modelled by
  `Err.fileNotFound`).
-/

namespace HarnessModel

/-- Outcome of invoking one service via `subprocess.run`: either the shell's
exit code, or a raised fault from the invocation path itself. -/
inductive SvcResult where
  | exit (code : Nat)
  | fault
deriving DecidableEq

/-- One code per `raise` site of `harness.py`, plus the `FileNotFoundError`
that `os.remove` raises inside `safe_library` on a missing path. -/
inductive Err where
  | dockerMissing
  | gitMissing
  | noHash
  | runFailed
  | serviceFailed (id : Nat)
  | fileNotFound (path : String)
deriving DecidableEq

/-- The ambient environment one `evaluate` call runs in: initial on-disk
destination files, the optional `library/export.yml` registry, tool
availability, the `HASH` environment variable, and the per-service
configuration together with how each service's run turns out. -/
structure Env where
  files0 : List String
  exportReg : Option (List (Nat × List (String × String)))
  dockerFound : Bool
  gitFound : Bool
  hash : Option String
  services : List (String × SvcResult)

/-- Observable state threaded through a run: destination files on disk, whether
the tracked directories are pinned away from their committed state, how many
pin (`git checkout <hash>`) and `safe_restore` invocations happened, and the
names of services attempted so far, in invocation order. -/
structure EvalSt where
  files : List String
  treeDirty : Bool
  pinCount : Nat
  restoreCount : Nat
  attempted : List String
deriving DecidableEq

/-- `safe_library(external)`: `for file in external: os.remove(file)`.
`os.remove` deletes an existing path and raises `FileNotFoundError` on a
missing one, aborting the loop. Returns the raised path (if any) and the
resulting on-disk file list. -/
def safe_library : List String → List String → Option String × List String
  | [], files => (none, files)
  | f :: rest, files =>
    if f ∈ files then safe_library rest (files.erase f)
    else (some f, files)

/-- `shutil.copy(key, value)`: the destination path exists afterwards (a path
occurs at most once in the file list). -/
def insertFile (files : List String) (f : String) : List String :=
  if f ∈ files then files else files ++ [f]

/-- Copy every resolved destination into the tree, in registry order. -/
def injectAll (dests : List String) (files : List String) : List String :=
  dests.foldl insertFile files

/-- The loop over `library_config['export']`: for every issue entry whose key
is this id, collect the destination values of its context mappings, in order. -/
def collectLibMaps (id : Nat) : List (Nat × List (String × String)) → List String
  | [] => []
  | issue :: rest =>
    (if issue.1 = id then issue.2.map Prod.snd else []) ++ collectLibMaps id rest

/-- `lib_maps` as built by `evaluate`: empty when `library/export.yml` is
absent, otherwise the destinations collected for this id. -/
def libMapsOf (env : Env) (id : Nat) : List String :=
  match env.exportReg with
  | none => []
  | some ex => collectLibMaps id ex

/-- Result of the `try` block's service loop: the accumulated
`error += result.returncode` sum, or an escaped fault. -/
inductive LoopRes where
  | done (error : Nat)
  | fault
deriving DecidableEq

/-- The `for i in services` loop: image update faults are swallowed by the
inner `try`, each service run either adds its exit code to `error` or raises,
and a raise aborts the loop. Also returns the attempted service names. -/
def runLoop : List (String × SvcResult) → Nat → List String → LoopRes × List String
  | [], error, attempted => (LoopRes.done error, attempted)
  | (name, res) :: rest, error, attempted =>
    match res with
    | SvcResult.exit c => runLoop rest (error + c) (attempted ++ [name])
    | SvcResult.fault => (LoopRes.fault, attempted ++ [name])

/-- Sum of the exit codes of a service list, ignoring faulting entries. -/
def svcSum : List (String × SvcResult) → Nat
  | [] => 0
  | (_, SvcResult.exit c) :: rest => c + svcSum rest
  | (_, SvcResult.fault) :: rest => svcSum rest

/-- Everything from the `try:` of `evaluate` on: run the services; on a fault,
`safe_restore` (if checkout), `safe_library`, re-raise a generic harness-run
failure; on normal loop exit, `safe_restore` (if checkout), `safe_library`,
then report: return `error != 0` when `error == 0`, raise otherwise. -/
def runPhase (env : Env) (id : Nat) (checkout : Bool) (maps : List String)
    (st : EvalSt) : Except Err Bool × EvalSt :=
  match runLoop env.services 0 [] with
  | (LoopRes.fault, att) =>
    let st1 := { st with attempted := att }
    let st2 := if checkout then
        { st1 with treeDirty := false, restoreCount := st1.restoreCount + 1 }
      else st1
    match safe_library maps st2.files with
    | (none, files2) => (Except.error Err.runFailed, { st2 with files := files2 })
    | (some p, files2) => (Except.error (Err.fileNotFound p), { st2 with files := files2 })
  | (LoopRes.done error, att) =>
    let st1 := { st with attempted := att }
    let st2 := if checkout then
        { st1 with treeDirty := false, restoreCount := st1.restoreCount + 1 }
      else st1
    match safe_library maps st2.files with
    | (some p, files2) => (Except.error (Err.fileNotFound p), { st2 with files := files2 })
    | (none, files2) =>
      let st3 := { st2 with files := files2 }
      if error = 0 then (Except.ok (error != 0), st3)
      else (Except.error (Err.serviceFailed id), st3)

/-- `Harness.evaluate(id, checkout)`: resolve and inject the library mappings,
check `docker` and `git` on PATH, then pin the tracked directories when a hash
is available and checkout was requested (raising when checkout was requested
without a hash), and hand over to the service loop. -/
def evaluate (env : Env) (id : Nat) (checkout : Bool) : Except Err Bool × EvalSt :=
  let maps := libMapsOf env id
  let st0 : EvalSt :=
    { files := injectAll maps env.files0, treeDirty := false,
      pinCount := 0, restoreCount := 0, attempted := [] }
  if env.dockerFound then
    if env.gitFound then
      match env.hash, checkout with
      | some _, true =>
        runPhase env id checkout maps
          { st0 with treeDirty := true, pinCount := st0.pinCount + 1 }
      | _, false => runPhase env id checkout maps st0
      | none, true => (Except.error Err.noHash, st0)
    else (Except.error Err.gitMissing, st0)
  else (Except.error Err.dockerMissing, st0)

/-- The `--all` loop of `__main__`: `error = 0; for id in ids: error +=
test.evaluate(id, chkt)` with no exception handling around the loop — a raise
from `evaluate` propagates. Returns the accumulated count or the escaped
error, plus the ids actually attempted. -/
def batchLoop (evalFn : Nat → Except Err Bool) :
    List Nat → Nat → List Nat → Except Err Nat × List Nat
  | [], error, attempted => (Except.ok error, attempted)
  | id :: rest, error, attempted =>
    match evalFn id with
    | Except.ok b => batchLoop evalFn rest (error + (if b then 1 else 0)) (attempted ++ [id])
    | Except.error e => (Except.error e, attempted ++ [id])

/-- Batch mode over a list of discovered ids, each run through `evaluate` in
its own environment with the shared checkout flag. -/
def batchMain (envOf : Nat → Env) (checkout : Bool) (ids : List Nat) :
    Except Err Nat × List Nat :=
  batchLoop (fun id => (evaluate (envOf id) id checkout).1) ids 0 []

/-- Environment for a data point whose registry entry injects one file but
whose `docker` executable is missing from PATH. -/
def envNoDocker : Env :=
  { files0 := [], exportReg := some [(7, [("ext/lib.v", "rtl/lib.v")])],
    dockerFound := false, gitFound := true, hash := some "abc123",
    services := [] }

/-- Environment with two passing services and one single-file injection. -/
def envTwoPass : Env :=
  { files0 := [], exportReg := some [(5, [("ext/lib.v", "rtl/lib.v")])],
    dockerFound := true, gitFound := true, hash := some "abc123",
    services := [("lint", SvcResult.exit 0), ("synth", SvcResult.exit 0)] }

/-- Environment whose `synth` service exits nonzero. -/
def envOneFail : Env :=
  { envTwoPass with services := [("lint", SvcResult.exit 0), ("synth", SvcResult.exit 1)] }

/-- Environment whose second service raises an invocation fault; a third
service is configured after it. -/
def envMidFault : Env :=
  { envTwoPass with services :=
      [("a", SvcResult.exit 0), ("b", SvcResult.fault), ("c", SvcResult.exit 0)] }

/-- Environment requesting checkout without a `HASH` value available. -/
def envNoHash : Env :=
  { envTwoPass with hash := none }

/-- Environment whose registry has an entry only for a different id. -/
def envOtherIds : Env :=
  { files0 := ["rtl/top.v"], exportReg := some [(3, [("ext/lib.v", "rtl/lib.v")])],
    dockerFound := true, gitFound := true, hash := some "abc123",
    services := [("lint", SvcResult.exit 0)] }

/-- Trivial environment: no registry, no services, no hash. -/
def envTrivial : Env :=
  { files0 := [], exportReg := none, dockerFound := true, gitFound := true,
    hash := none, services := [] }

/-- Batch scenario: id 2's single service raises an invocation fault, the
other ids have one passing service each. -/
def batchEnvOf : Nat → Env := fun id =>
  { files0 := [], exportReg := none, dockerFound := true, gitFound := true,
    hash := some "abc123",
    services := if id = 2 then [("svc", SvcResult.fault)]
      else [("svc", SvcResult.exit 0)] }


theorem injectAll_fresh : ∀ (maps files : List String), maps.Nodup →
    (∀ d ∈ maps, d ∉ files) → injectAll maps files = files ++ maps := by
  intro maps
  induction maps with
  | nil => intro files _ _; simp [injectAll]
  | cons f rest ih =>
    intro files hnd hfr
    have hf : f ∉ files := hfr f (List.mem_cons_self f rest)
    have : injectAll (f :: rest) files = injectAll rest (files ++ [f]) := by
      simp [injectAll, insertFile, hf]
    rw [this, ih (files ++ [f]) (List.Nodup.of_cons hnd)]
    · simp
    · intro d hd
      simp only [List.mem_append, List.mem_singleton]
      rintro (h1 | h2)
      · exact hfr d (List.mem_cons_of_mem _ hd) h1
      · subst h2
        exact (List.nodup_cons.mp hnd).1 hd

theorem safe_library_append : ∀ (maps files : List String), maps.Nodup →
    (∀ d ∈ maps, d ∉ files) → safe_library maps (files ++ maps) = (none, files) := by
  intro maps
  induction maps with
  | nil => intro files _ _; simp [safe_library]
  | cons f rest ih =>
    intro files hnd hfr
    have hf : f ∉ files := hfr f (List.mem_cons_self f rest)
    have hmem : f ∈ files ++ f :: rest := by simp
    have herase : (files ++ f :: rest).erase f = files ++ rest := by
      rw [List.erase_append_right _ hf, List.erase_cons_head]
    simp only [safe_library, hmem, if_pos, herase]
    exact ih files (List.Nodup.of_cons hnd) (fun d hd => by
      intro hdf
      exact hfr d (List.mem_cons_of_mem _ hd) hdf)

theorem cleanup_round (maps files : List String) (hnd : maps.Nodup)
    (hfr : ∀ d ∈ maps, d ∉ files) :
    safe_library maps (injectAll maps files) = (none, files) := by
  rw [injectAll_fresh maps files hnd hfr]
  exact safe_library_append maps files hnd hfr

theorem runLoop_no_fault : ∀ (l : List (String × SvcResult)) (error : Nat) (acc : List String),
    (∀ p ∈ l, p.2 ≠ SvcResult.fault) →
    runLoop l error acc = (LoopRes.done (error + svcSum l), acc ++ l.map Prod.fst) := by
  intro l
  induction l with
  | nil => intro error acc _; simp [runLoop, svcSum]
  | cons p rest ih =>
    intro error acc h
    obtain ⟨name, res⟩ := p
    cases res with
    | exit c =>
      have := ih (error + c) (acc ++ [name]) (fun q hq => h q (List.mem_cons_of_mem _ hq))
      simp only [runLoop, this, svcSum]
      simp [Nat.add_assoc]
    | fault =>
      exact absurd rfl (h (name, SvcResult.fault) (List.mem_cons_self _ _))

theorem runLoop_fault_split : ∀ (pre : List (String × SvcResult)) (name : String)
    (post : List (String × SvcResult)) (error : Nat) (acc : List String),
    (∀ p ∈ pre, p.2 ≠ SvcResult.fault) →
    runLoop (pre ++ (name, SvcResult.fault) :: post) error acc =
      (LoopRes.fault, acc ++ pre.map Prod.fst ++ [name]) := by
  intro pre
  induction pre with
  | nil => intro name post error acc _; simp [runLoop]
  | cons p rest ih =>
    intro name post error acc h
    obtain ⟨n, res⟩ := p
    cases res with
    | exit c =>
      have := ih name post (error + c) (acc ++ [n]) (fun q hq => h q (List.mem_cons_of_mem _ hq))
      simp only [List.cons_append, runLoop, List.append_eq]
      rw [this]
      simp
    | fault =>
      exact absurd rfl (h (n, SvcResult.fault) (List.mem_cons_self _ _))

theorem svcSum_eq_zero : ∀ (l : List (String × SvcResult)),
    (∀ p ∈ l, p.2 ≠ SvcResult.fault) →
    (svcSum l = 0 ↔ ∀ p ∈ l, p.2 = SvcResult.exit 0) := by
  intro l
  induction l with
  | nil => intro _; simp [svcSum]
  | cons p rest ih =>
    intro h
    obtain ⟨name, res⟩ := p
    cases res with
    | exit c =>
      have hrest := ih (fun q hq => h q (List.mem_cons_of_mem _ hq))
      simp only [svcSum, Nat.add_eq_zero_iff, hrest, List.mem_cons]
      constructor
      · rintro ⟨hc, hall⟩ q (rfl | hq)
        · simp [hc]
        · exact hall q hq
      · intro hall
        constructor
        · have := hall (name, SvcResult.exit c) (Or.inl rfl)
          simpa using this
        · intro q hq; exact hall q (Or.inr hq)
    | fault =>
      exact absurd rfl (h (name, SvcResult.fault) (List.mem_cons_self _ _))

theorem evaluate_eq_runPhase (env : Env) (id : Nat) (checkout : Bool)
    (hd : env.dockerFound = true) (hg : env.gitFound = true)
    (hh : checkout = true → env.hash.isSome = true) :
    evaluate env id checkout = runPhase env id checkout (libMapsOf env id)
      { files := injectAll (libMapsOf env id) env.files0, treeDirty := checkout,
        pinCount := if checkout then 1 else 0, restoreCount := 0, attempted := [] } := by
  unfold evaluate
  rw [hd, hg]
  simp only [if_true]
  cases hc : checkout with
  | false => cases env.hash <;> simp
  | true =>
    have hs := hh hc
    cases hhash : env.hash with
    | none => rw [hhash] at hs; simp at hs
    | some v => simp

theorem runPhase_restores (env : Env) (id : Nat) (checkout : Bool) (maps : List String)
    (st : EvalSt) (files2 : List String)
    (hcl : safe_library maps st.files = (none, files2)) :
    (runPhase env id checkout maps st).2.files = files2 ∧
    (runPhase env id checkout maps st).2.treeDirty =
      (if checkout then false else st.treeDirty) := by
  obtain ⟨fs, td, pc, rc, att0⟩ := st
  simp only at hcl
  unfold runPhase
  rcases hr : runLoop env.services 0 [] with ⟨lr, att⟩
  cases lr <;> cases checkout <;>
    simp only [Bool.false_eq_true, if_false, if_true, ite_true, ite_false] <;>
    rw [hcl] <;> simp
  case done.false error =>
    by_cases hz : error = 0 <;> simp [hz]
  case done.true error =>
    by_cases hz : error = 0 <;> simp [hz]

theorem runPhase_counts (env : Env) (id : Nat) (checkout : Bool) (maps : List String)
    (st : EvalSt) :
    (runPhase env id checkout maps st).2.pinCount = st.pinCount ∧
    (runPhase env id checkout maps st).2.restoreCount =
      (if checkout then st.restoreCount + 1 else st.restoreCount) := by
  obtain ⟨fs, td, pc, rc, att0⟩ := st
  unfold runPhase
  rcases hr : runLoop env.services 0 [] with ⟨lr, att⟩
  rcases hsl : safe_library maps fs with ⟨op, f2⟩
  cases lr <;> cases checkout <;>
    simp only [Bool.false_eq_true, if_false, if_true, ite_true, ite_false] <;>
    rw [hsl] <;> cases op <;> simp
  case done.false.none error =>
    by_cases hz : error = 0 <;> simp [hz]
  case done.true.none error =>
    by_cases hz : error = 0 <;> simp [hz]

theorem runPhase_no_fault (env : Env) (id : Nat) (checkout : Bool) (maps : List String)
    (st : EvalSt) (files2 : List String)
    (hnf : ∀ p ∈ env.services, p.2 ≠ SvcResult.fault)
    (hcl : safe_library maps st.files = (none, files2)) :
    runPhase env id checkout maps st =
      ((if svcSum env.services = 0 then Except.ok false
        else Except.error (Err.serviceFailed id)),
       { files := files2,
         treeDirty := if checkout then false else st.treeDirty,
         pinCount := st.pinCount,
         restoreCount := if checkout then st.restoreCount + 1 else st.restoreCount,
         attempted := env.services.map Prod.fst }) := by
  obtain ⟨fs, td, pc, rc, att0⟩ := st
  simp only at hcl
  unfold runPhase
  rw [runLoop_no_fault env.services 0 [] hnf]
  cases checkout <;>
    simp only [Bool.false_eq_true, if_false, if_true, ite_true, ite_false,
      Nat.zero_add, List.nil_append] <;>
    rw [hcl] <;>
    by_cases hz : svcSum env.services = 0 <;>
    simp [hz, bne]

theorem runPhase_fault (env : Env) (id : Nat) (checkout : Bool) (maps : List String)
    (st : EvalSt) (files2 : List String)
    (pre : List (String × SvcResult)) (name : String) (post : List (String × SvcResult))
    (hsplit : env.services = pre ++ (name, SvcResult.fault) :: post)
    (hpre : ∀ p ∈ pre, p.2 ≠ SvcResult.fault)
    (hcl : safe_library maps st.files = (none, files2)) :
    runPhase env id checkout maps st =
      (Except.error Err.runFailed,
       { files := files2,
         treeDirty := if checkout then false else st.treeDirty,
         pinCount := st.pinCount,
         restoreCount := if checkout then st.restoreCount + 1 else st.restoreCount,
         attempted := pre.map Prod.fst ++ [name] }) := by
  obtain ⟨fs, td, pc, rc, att0⟩ := st
  simp only at hcl
  unfold runPhase
  rw [hsplit, runLoop_fault_split pre name post 0 [] hpre]
  cases checkout <;>
    simp only [Bool.false_eq_true, if_false, if_true, ite_true, ite_false,
      List.nil_append] <;>
    rw [hcl]

theorem runPhase_ok_false (env : Env) (id : Nat) (checkout : Bool) (maps : List String)
    (st : EvalSt) (b : Bool)
    (h : (runPhase env id checkout maps st).1 = Except.ok b) : b = false := by
  obtain ⟨fs, td, pc, rc, att0⟩ := st
  unfold runPhase at h
  rcases hr : runLoop env.services 0 [] with ⟨lr, att⟩
  rw [hr] at h
  rcases hsl : safe_library maps fs with ⟨op, f2⟩
  cases lr <;> cases checkout <;>
      simp only [Bool.false_eq_true, if_false, if_true, ite_true, ite_false] at h <;>
      rw [hsl] at h <;> cases op <;> simp at h
  case done.false.none error =>
    by_cases hz : error = 0 <;> simp [hz] at h
    simp_all
  case done.true.none error =>
    by_cases hz : error = 0 <;> simp [hz] at h
    simp_all

theorem evaluate_ok_false (env : Env) (id : Nat) (checkout : Bool) (b : Bool)
    (h : (evaluate env id checkout).1 = Except.ok b) : b = false := by
  unfold evaluate at h
  by_cases hd : env.dockerFound <;> simp only [hd, if_true, if_false, Bool.false_eq_true] at h
  · by_cases hg : env.gitFound <;> simp only [hg, if_true, if_false, Bool.false_eq_true] at h
    · cases hhash : env.hash <;> rw [hhash] at h <;> cases checkout <;> simp only [] at h
      · exact runPhase_ok_false env id false _ _ b h
      · simp at h
      · exact runPhase_ok_false env id false _ _ b h
      · exact runPhase_ok_false env id true _ _ b h
    · simp at h
  · simp at h

theorem batchLoop_ok_count (evalFn : Nat → Except Err Bool)
    (hok : ∀ id b, evalFn id = Except.ok b → b = false) :
    ∀ (ids : List Nat) (error : Nat) (acc : List Nat) (n : Nat) (att : List Nat),
      batchLoop evalFn ids error acc = (Except.ok n, att) → n = error := by
  intro ids
  induction ids with
  | nil =>
    intro error acc n att h
    simp [batchLoop] at h
    obtain ⟨h1, h2⟩ := h
    omega
  | cons id rest ih =>
    intro error acc n att h
    unfold batchLoop at h
    cases he : evalFn id with
    | error e => rw [he] at h; simp at h
    | ok b =>
      rw [he] at h
      have hb := hok id b he
      subst hb
      simp only [Bool.false_eq_true, if_false] at h
      have := ih (error + 0) (acc ++ [id]) n att h
      omega

theorem collectLibMaps_nil : ∀ (id : Nat) (ex : List (Nat × List (String × String))),
    (∀ issue ∈ ex, issue.1 ≠ id) → collectLibMaps id ex = [] := by
  intro id ex
  induction ex with
  | nil => intro _; simp [collectLibMaps]
  | cons issue rest ih =>
    intro h
    have h1 : issue.1 ≠ id := h issue (List.mem_cons_self _ _)
    simp only [collectLibMaps, if_neg h1, List.nil_append]
    exact ih (fun q hq => h q (List.mem_cons_of_mem _ hq))

/-- Claim C1, counterexample: with the registry mapping a file for data point
7 but `docker` absent from PATH, `evaluate` raises after injecting the file
and before the service loop, and the injected destination `rtl/lib.v` is
still on disk when it raises — this exit path does not revert the run's
mutations. -/
theorem evaluate_missing_docker_leaves_files :
    (evaluate envNoDocker 7 true).1 = Except.error Err.dockerMissing ∧
    (evaluate envNoDocker 7 true).2.files = ["rtl/lib.v"] ∧
    envNoDocker.files0 = [] :=
  ⟨rfl, rfl, rfl⟩

/-- Claim C1 (amended): provided the pre-loop configuration checks pass
(docker and git are on PATH, and a hash is available whenever checkout is
requested) and the resolved destination paths are distinct and not already
present, every exit path of `evaluate` — normal return, service-failure
report, or a fault raised during the service loop — deletes all injected
library files and leaves the tracked tree in its pre-run committed state. -/
theorem evaluate_cleanup_after_config_checks (env : Env) (id : Nat) (checkout : Bool)
    (hd : env.dockerFound = true) (hg : env.gitFound = true)
    (hh : checkout = true → env.hash.isSome = true)
    (hnd : (libMapsOf env id).Nodup)
    (hfr : ∀ d ∈ libMapsOf env id, d ∉ env.files0) :
    (evaluate env id checkout).2.files = env.files0 ∧
    (evaluate env id checkout).2.treeDirty = false := by
  rw [evaluate_eq_runPhase env id checkout hd hg hh]
  have hcl : safe_library (libMapsOf env id)
      (EvalSt.mk (injectAll (libMapsOf env id) env.files0) checkout
        (if checkout then 1 else 0) 0 []).files = (none, env.files0) := by
    simpa using cleanup_round (libMapsOf env id) env.files0 hnd hfr
  have h := runPhase_restores env id checkout (libMapsOf env id) _ env.files0 hcl
  refine ⟨h.1, ?_⟩
  rw [h.2]
  cases checkout <;> simp

/-- Witness for the amended claim C1: a concrete run whose second service
faults mid-loop still ends with the injected file deleted and the tree
restored. -/
theorem evaluate_cleanup_after_config_checks_witness :
    envMidFault.dockerFound = true ∧
    (evaluate envMidFault 5 true).2.files = envMidFault.files0 ∧
    (evaluate envMidFault 5 true).2.treeDirty = false := by
  have h := evaluate_cleanup_after_config_checks envMidFault 5 true rfl rfl
    (fun _ => rfl) (by decide) (by decide)
  exact ⟨rfl, h.1, h.2⟩

/-- Claim C2: the `--all` loop of `__main__` has no exception handling, so
the fault raised by `evaluate` for id 2 propagates: id 3 is never attempted
and no aggregate failure count is produced, contradicting the claimed batch
resilience. -/
theorem batch_aborts_on_single_fault :
    batchMain batchEnvOf true [1, 2, 3] = (Except.error Err.runFailed, [1, 2]) :=
  rfl

/-- Claim C3: `safe_library` deletes with `os.remove`, which raises on an
absent path: the raise aborts the loop, so the remaining mapping is not
deleted, and a second consecutive cleanup call over the same mapping raises
instead of being a no-op — cleanup is neither total nor idempotent. -/
theorem safe_library_raises_on_absent_path :
    safe_library ["rtl/a.v", "rtl/b.v"] ["rtl/b.v"] = (some "rtl/a.v", ["rtl/b.v"]) ∧
    safe_library ["rtl/a.v"] ["rtl/a.v"] = (none, []) ∧
    safe_library ["rtl/a.v"] [] = (some "rtl/a.v", []) :=
  ⟨rfl, rfl, rfl⟩

/-- Claim C7: when checkout is requested and no `HASH` value is available,
`evaluate` raises the hash configuration error and performs no checkout —
the pin is never silently skipped. -/
theorem evaluate_raises_on_missing_hash (env : Env) (id : Nat)
    (hd : env.dockerFound = true) (hg : env.gitFound = true)
    (hnone : env.hash = none) :
    (evaluate env id true).1 = Except.error Err.noHash ∧
    (evaluate env id true).2.pinCount = 0 := by
  simp [evaluate, hd, hg, hnone]

/-- Witness for claim C7: a concrete environment with no hash. -/
theorem evaluate_raises_on_missing_hash_witness :
    envNoHash.hash = none ∧
    (evaluate envNoHash 5 true).1 = Except.error Err.noHash :=
  ⟨rfl, (evaluate_raises_on_missing_hash envNoHash 5 rfl rfl rfl).1⟩

/-- Claim C10: whenever `evaluate` returns normally its value is `False`
(the failure branch raises before the `return`), so neither the single-id
caller's check of the return value nor the batch driver's accumulated sum
over return values ever observes a failure through the return value. -/
theorem evaluate_normal_return_always_false :
    (∀ (env : Env) (id : Nat) (checkout : Bool) (b : Bool),
       (evaluate env id checkout).1 = Except.ok b → b = false) ∧
    (∀ (envOf : Nat → Env) (checkout : Bool) (ids : List Nat) (n : Nat),
       (batchMain envOf checkout ids).1 = Except.ok n → n = 0) := by
  refine ⟨evaluate_ok_false, ?_⟩
  intro envOf checkout ids n h
  unfold batchMain at h
  exact batchLoop_ok_count _ (fun id b hb => evaluate_ok_false (envOf id) id checkout b hb)
    ids 0 [] n _ (Prod.ext h rfl)

/-- Witness for claim C10: a concrete normal return, whose value is `false`. -/
theorem evaluate_normal_return_always_false_witness :
    (evaluate envTrivial 1 false).1 = Except.ok false ∧ (false : Bool) = false :=
  ⟨rfl, evaluate_normal_return_always_false.1 envTrivial 1 false false rfl⟩

/-- Claim C4: when no service invocation faults, every configured service is
attempted, in configuration declaration order, even when earlier services
exit nonzero, and the final outcome is determined by the sum of the exit
codes of all services. -/
theorem evaluate_attempts_all_services_in_order (env : Env) (id : Nat) (checkout : Bool)
    (hd : env.dockerFound = true) (hg : env.gitFound = true)
    (hh : checkout = true → env.hash.isSome = true)
    (hnd : (libMapsOf env id).Nodup)
    (hfr : ∀ d ∈ libMapsOf env id, d ∉ env.files0)
    (hnf : ∀ p ∈ env.services, p.2 ≠ SvcResult.fault) :
    (evaluate env id checkout).2.attempted = env.services.map Prod.fst ∧
    (evaluate env id checkout).1 =
      (if svcSum env.services = 0 then Except.ok false
       else Except.error (Err.serviceFailed id)) := by
  rw [evaluate_eq_runPhase env id checkout hd hg hh]
  have hcl : safe_library (libMapsOf env id)
      (EvalSt.mk (injectAll (libMapsOf env id) env.files0) checkout
        (if checkout then 1 else 0) 0 []).files = (none, env.files0) := by
    simpa using cleanup_round (libMapsOf env id) env.files0 hnd hfr
  rw [runPhase_no_fault env id checkout (libMapsOf env id) _ env.files0 hnf hcl]
  exact ⟨rfl, rfl⟩

/-- Witness for claim C4: the first service passes, the second exits 1, both
are attempted in order and the data point is reported failed. -/
theorem evaluate_attempts_all_services_in_order_witness :
    (∀ p ∈ envOneFail.services, p.2 ≠ SvcResult.fault) ∧
    (evaluate envOneFail 5 true).2.attempted = ["lint", "synth"] ∧
    (evaluate envOneFail 5 true).1 = Except.error (Err.serviceFailed 5) := by
  have h := evaluate_attempts_all_services_in_order envOneFail 5 true rfl rfl
    (fun _ => rfl) (by decide) (by decide) (by decide)
  exact ⟨by decide, h.1.trans (by decide), h.2.trans (by rfl)⟩

/-- Claim C5: a fault raised while invoking a service aborts the loop — no
later service is attempted — yet cleanup and restore still run, and
`evaluate` re-raises the generic harness-run-failed fault. -/
theorem evaluate_aborts_and_restores_on_fault (env : Env) (id : Nat) (checkout : Bool)
    (hd : env.dockerFound = true) (hg : env.gitFound = true)
    (hh : checkout = true → env.hash.isSome = true)
    (hnd : (libMapsOf env id).Nodup)
    (hfr : ∀ d ∈ libMapsOf env id, d ∉ env.files0)
    (pre : List (String × SvcResult)) (name : String) (post : List (String × SvcResult))
    (hsplit : env.services = pre ++ (name, SvcResult.fault) :: post)
    (hpre : ∀ p ∈ pre, p.2 ≠ SvcResult.fault) :
    (evaluate env id checkout).1 = Except.error Err.runFailed ∧
    (evaluate env id checkout).2.attempted = pre.map Prod.fst ++ [name] ∧
    (evaluate env id checkout).2.files = env.files0 ∧
    (evaluate env id checkout).2.treeDirty = false := by
  rw [evaluate_eq_runPhase env id checkout hd hg hh]
  have hcl : safe_library (libMapsOf env id)
      (EvalSt.mk (injectAll (libMapsOf env id) env.files0) checkout
        (if checkout then 1 else 0) 0 []).files = (none, env.files0) := by
    simpa using cleanup_round (libMapsOf env id) env.files0 hnd hfr
  rw [runPhase_fault env id checkout (libMapsOf env id) _ env.files0 pre name post
    hsplit hpre hcl]
  refine ⟨rfl, rfl, rfl, ?_⟩
  cases checkout <;> rfl

/-- Witness for claim C5: service `b` faults, `c` is never attempted, and
the injected file is removed. -/
theorem evaluate_aborts_and_restores_on_fault_witness :
    (evaluate envMidFault 5 true).1 = Except.error Err.runFailed ∧
    (evaluate envMidFault 5 true).2.attempted = ["a", "b"] ∧
    (evaluate envMidFault 5 true).2.files = envMidFault.files0 := by
  have h := evaluate_aborts_and_restores_on_fault envMidFault 5 true rfl rfl
    (fun _ => rfl) (by decide) (by decide)
    [("a", SvcResult.exit 0)] "b" [("c", SvcResult.exit 0)] rfl (by decide)
  exact ⟨h.1, h.2.1.trans (by decide), h.2.2.1⟩

/-- Claim C6: when every service was attempted (no invocation fault), the
data point is reported failed — via the reportable `serviceFailed` fault,
distinct from the generic invocation-fault report — exactly when at least
one service exited nonzero, and reported successful exactly when all exit
codes were zero. -/
theorem evaluate_failed_iff_nonzero_service (env : Env) (id : Nat) (checkout : Bool)
    (hd : env.dockerFound = true) (hg : env.gitFound = true)
    (hh : checkout = true → env.hash.isSome = true)
    (hnd : (libMapsOf env id).Nodup)
    (hfr : ∀ d ∈ libMapsOf env id, d ∉ env.files0)
    (hnf : ∀ p ∈ env.services, p.2 ≠ SvcResult.fault) :
    ((evaluate env id checkout).1 = Except.error (Err.serviceFailed id) ↔
       ∃ p ∈ env.services, p.2 ≠ SvcResult.exit 0) ∧
    ((evaluate env id checkout).1 = Except.ok false ↔
       ∀ p ∈ env.services, p.2 = SvcResult.exit 0) ∧
    (∀ n, Err.serviceFailed n ≠ Err.runFailed) := by
  rw [evaluate_eq_runPhase env id checkout hd hg hh]
  have hcl : safe_library (libMapsOf env id)
      (EvalSt.mk (injectAll (libMapsOf env id) env.files0) checkout
        (if checkout then 1 else 0) 0 []).files = (none, env.files0) := by
    simpa using cleanup_round (libMapsOf env id) env.files0 hnd hfr
  rw [runPhase_no_fault env id checkout (libMapsOf env id) _ env.files0 hnf hcl]
  have hzero := svcSum_eq_zero env.services hnf
  refine ⟨?_, ?_, fun n h => Err.noConfusion h⟩
  · by_cases hz : svcSum env.services = 0
    · rw [if_pos hz]
      refine iff_of_false (by simp) ?_
      rintro ⟨p, hp, hne⟩
      exact hne (hzero.mp hz p hp)
    · rw [if_neg hz]
      refine iff_of_true (by simp) ?_
      by_contra hne
      push_neg at hne
      exact hz (hzero.mpr hne)
  · by_cases hz : svcSum env.services = 0
    · rw [if_pos hz]
      exact iff_of_true rfl (hzero.mp hz)
    · rw [if_neg hz]
      exact iff_of_false (by simp) (fun hall => hz (hzero.mpr hall))

/-- Witness for claim C6: `synth` exits 1, so the data point is reported
failed. -/
theorem evaluate_failed_iff_nonzero_service_witness :
    (evaluate envOneFail 5 true).1 = Except.error (Err.serviceFailed 5) := by
  have h := evaluate_failed_iff_nonzero_service envOneFail 5 true rfl rfl
    (fun _ => rfl) (by decide) (by decide) (by decide)
  exact h.1.mpr ⟨("synth", SvcResult.exit 1), by decide, by decide⟩

/-- Claim C8: an id with no entry in the export registry (or an absent
registry document) resolves to zero injections, raises no error for the
absence, and completes normally when all services pass. -/
theorem evaluate_no_registry_entry_ok (env : Env) (id : Nat) (checkout : Bool)
    (hd : env.dockerFound = true) (hg : env.gitFound = true)
    (hh : checkout = true → env.hash.isSome = true)
    (hreg : env.exportReg = none ∨ ∀ issue ∈ env.exportReg.getD [], issue.1 ≠ id)
    (hpass : ∀ p ∈ env.services, p.2 = SvcResult.exit 0) :
    libMapsOf env id = [] ∧
    (evaluate env id checkout).1 = Except.ok false ∧
    (evaluate env id checkout).2.files = env.files0 := by
  have hmaps : libMapsOf env id = [] := by
    rcases hreg with h | h
    · simp [libMapsOf, h]
    · cases hex : env.exportReg with
      | none => simp [libMapsOf, hex]
      | some ex =>
        rw [hex] at h
        simp only [Option.getD_some] at h
        simp [libMapsOf, hex, collectLibMaps_nil id ex h]
  have hnf : ∀ p ∈ env.services, p.2 ≠ SvcResult.fault := by
    intro p hp
    rw [hpass p hp]
    intro hcon
    exact SvcResult.noConfusion hcon
  have hz : svcSum env.services = 0 := (svcSum_eq_zero env.services hnf).mpr hpass
  rw [evaluate_eq_runPhase env id checkout hd hg hh]
  have hcl : safe_library (libMapsOf env id)
      (EvalSt.mk (injectAll (libMapsOf env id) env.files0) checkout
        (if checkout then 1 else 0) 0 []).files = (none, env.files0) := by
    rw [hmaps]
    simp [safe_library, injectAll]
  rw [runPhase_no_fault env id checkout (libMapsOf env id) _ env.files0 hnf hcl]
  exact ⟨hmaps, by rw [if_pos hz], rfl⟩

/-- Witness for claim C8: the registry only has an entry for id 3; running
id 7 injects nothing and completes normally. -/
theorem evaluate_no_registry_entry_ok_witness :
    libMapsOf envOtherIds 7 = [] ∧
    (evaluate envOtherIds 7 true).1 = Except.ok false ∧
    (evaluate envOtherIds 7 true).2.files = envOtherIds.files0 :=
  evaluate_no_registry_entry_ok envOtherIds 7 true rfl rfl (fun _ => rfl)
    (Or.inr (by decide)) (by decide)

/-- Claim C9: with checkout disabled, no exit path of `evaluate` ever invokes
the pin (`git checkout <hash>`) or the `safe_restore` tree operations — the
run uses the on-disk tree contents as they are. -/
theorem evaluate_checkout_disabled_never_pins_or_restores (env : Env) (id : Nat) :
    (evaluate env id false).2.pinCount = 0 ∧
    (evaluate env id false).2.restoreCount = 0 := by
  have h := runPhase_counts env id false (libMapsOf env id)
    (EvalSt.mk (injectAll (libMapsOf env id) env.files0) false 0 0 [])
  simp only [Bool.false_eq_true, if_false, ite_false] at h
  by_cases hd : env.dockerFound
  · by_cases hg : env.gitFound
    · cases hhash : env.hash with
      | none =>
        simp only [evaluate, hd, hg, hhash, if_true]
        exact h
      | some v =>
        simp only [evaluate, hd, hg, hhash, if_true]
        exact h
    · simp [evaluate, hd, hg]
  · simp [evaluate, hd]

end HarnessModel
